import Mathlib

/-!
Verification of the gobuild server core against its source.

The Go source is shallowly embedded: pure logic (string validation,
splitting, base64, status selection, sort scheduling) is translated into
executable Lean functions; effectful calls (HTTP, filesystem, catalog
listing) are captured in explicit environment records whose fields hold
the results the corresponding Go calls would return, so each Go function
becomes a Lean function of its environment and state.  Machine integers
are modelled as Nat/Int (Go int64 overflow is irrelevant to the claims
except in strconv.ParseInt, where the 64-bit range check is explicit).
Fallible Go calls are Except/Option valued; a Go panic is modelled as
Option.none.
-/

/- ===== Error model (serve.go: errRemote, errServer; errors.Is) ===== -/

/-- The sentinel errors of the program: errBadGoversion (part_000),
errRemote and errServer (serve.go).  A Go error value wrapping sentinels
via fmt.Errorf %w is modelled as the list of wrapped sentinels plus the
message. -/
inductive Sentinel where
  | badGoversion
  | remote
  | server
deriving DecidableEq, Repr

/-- A Go error value: the sentinels reachable through its Unwrap chain and
its message text. -/
structure Err where
  kinds : List Sentinel
  msg : String
deriving DecidableEq, Repr

/-- errors.Is(err, sentinel): the sentinel is in the wrap chain. -/
def errorsIs (e : Err) (s : Sentinel) : Bool :=
  e.kinds.contains s

/-- serve.go failf, lines 365-381: the HTTP status it writes.  Only an
error wrapping errServer yields 500; every other error yields 400. -/
def failfStatus (e : Err) : Nat :=
  if errorsIs e Sentinel.server then 500 else 400

/-- serve.go failf: the message text written into the error page. -/
def failfMessage (e : Err) : String :=
  if errorsIs e Sentinel.server then "500 - internal server error - " ++ e.msg
  else "400 - bad request - " ++ e.msg

/- ===== String helpers (strings.Split, strings.TrimSpace, strconv) ===== -/

/-- strings.Split(s, sep) for a one-character separator, on char lists.
Splitting the empty string yields one empty group, as in Go. -/
def splitChar (sep : Char) : List Char → List (List Char)
  | [] => [[]]
  | c :: cs =>
    match splitChar sep cs with
    | [] => [[]]
    | g :: gs => if c = sep then [] :: g :: gs else (c :: g) :: gs

/-- The whitespace set of unicode.IsSpace restricted to Latin-1, which is
what Go's fast path checks and all that HTTP header values contain. -/
def goIsSpace (c : Char) : Bool :=
  c = ' ' || c = '\t' || c = '\n' || (c = Char.ofNat 11) ||
  (c = Char.ofNat 12) || c = '\r' || (c = Char.ofNat 133) || (c = Char.ofNat 160)

/-- strings.TrimSpace on char lists: drop whitespace from both ends. -/
def trimSpace (cs : List Char) : List Char :=
  ((cs.dropWhile goIsSpace).reverse.dropWhile goIsSpace).reverse

/-- Accumulate a decimal value from digit characters; any non-digit is an
error, mirroring strconv.ParseInt's per-character check in base 10. -/
def digitsVal (cs : List Char) : Option Nat :=
  if cs = [] then none
  else cs.foldl
    (fun acc c =>
      match acc with
      | none => none
      | some n => if c.isDigit then some (n * 10 + (c.toNat - 48)) else none)
    (some 0)

/-- strconv.ParseInt(s, 10, 64): optional sign, at least one digit, all
digits, result within the signed 64-bit range; none models a non-nil
error. -/
def parseInt64 (s : String) : Option Int :=
  match s.data with
  | [] => none
  | c :: rest =>
    let signAndDigits : Bool × List Char :=
      if c = '-' then (true, rest)
      else if c = '+' then (false, rest)
      else (false, c :: rest)
    match digitsVal signAndDigits.2 with
    | none => none
    | some n =>
      let v : Int := if signAndDigits.1 then -(n : Int) else (n : Int)
      if v < -(2 ^ 63) ∨ 2 ^ 63 - 1 < v then none else some v

/-- strings.HasPrefix, on the char lists underlying the strings. -/
def hasPrefixC (s pat : String) : Bool :=
  pat.data.isPrefixOf s.data

/- ===== base64.RawURLEncoding (used for sums) ===== -/

/-- One character of the URL-safe base64 alphabet. -/
def b64Char (n : Nat) : Char :=
  if n < 26 then Char.ofNat (65 + n)
  else if n < 52 then Char.ofNat (97 + (n - 26))
  else if n < 62 then Char.ofNat (48 + (n - 52))
  else if n = 62 then '-' else '_'

/-- base64.RawURLEncoding.EncodeToString: URL-safe alphabet, no padding. -/
def base64RawURL : List Nat → List Char
  | [] => []
  | [b0] => [b64Char (b0 / 4), b64Char (b0 % 4 * 16)]
  | [b0, b1] => [b64Char (b0 / 4), b64Char (b0 % 4 * 16 + b1 / 16), b64Char (b1 % 16 * 4)]
  | b0 :: b1 :: b2 :: rest =>
    b64Char (b0 / 4) :: b64Char (b0 % 4 * 16 + b1 / 16) ::
      b64Char (b1 % 16 * 4 + b2 / 64) :: b64Char (b2 % 64) :: base64RawURL rest

/- ===== acceptsGzip and serveGzipFile (serve.go lines 394-419) ===== -/

/-- The loop body of acceptsGzip.  t1 is t[1] of the comma-split list t
(precomputed, since the source indexes the outer list t, not the
per-entry split tt); none models the index-out-of-range panic Go raises
when len(tt) > 1 but t has fewer than two entries. -/
def acceptsGzipLoop (t1 : Option (List Char)) : List (List Char) → Option Bool
  | [] => some false
  | e :: rest =>
    let e2 := trimSpace e
    let tt := splitChar ';' e2
    if tt.length > 1 then
      match t1 with
      | none => none
      | some v =>
        if v = "q=0".data then acceptsGzipLoop t1 rest
        else if tt.headD [] = "gzip".data then some true
        else acceptsGzipLoop t1 rest
    else
      if tt.headD [] = "gzip".data then some true
      else acceptsGzipLoop t1 rest

/-- serve.go acceptsGzip, lines 405-419, applied to the Accept-Encoding
header value.  Faithful to the source, including its use of t[1] (an
entry of the comma-split list) where the quality parameter tt[1] was
evidently intended; none models the panic on that out-of-range index. -/
def acceptsGzip (s : String) : Option Bool :=
  let t := splitChar ',' s.data
  acceptsGzipLoop (t.get? 1) t

/-- Modelled from the spec: gzip is accepted when some comma-separated
entry of the Accept-Encoding value names gzip and does not carry the
quality parameter q=0 (an entry "gzip;q=0" means gzip is not accepted). -/
def acceptsGzipSpec (s : String) : Bool :=
  (splitChar ',' s.data).any fun e =>
    let tt := splitChar ';' (trimSpace e)
    tt.headD [] = "gzip".data && tt.get? 1 ≠ some "q=0".data

/-- The observable response of serveGzipFile. -/
inductive GzResponse where
  | gzipped (bytes : List Nat)
  | plain (bytes : List Nat)
  | failed (status : Nat)
deriving DecidableEq, Repr

/-- serve.go serveGzipFile, lines 394-403: when the caller accepts gzip
the stored bytes are copied with Content-Encoding: gzip; otherwise the
gzip stream is decompressed (gunzip is the reader's outcome) and a
decompression failure is rendered through failf with errServer. -/
def serveGzipFile (accepts : Bool) (stored : List Nat)
    (gunzip : Except String (List Nat)) : GzResponse :=
  if accepts then .gzipped stored
  else
    match gunzip with
    | .error _ => .failed (failfStatus ⟨[Sentinel.server], "decompressing"⟩)
    | .ok d => .plain d

/- ===== resolveModuleLatest (src/unnamed/part_001) ===== -/

/-- The JSON document returned by the module proxy's @latest endpoint. -/
structure ModVersion where
  version : String
  time : String
deriving DecidableEq, Repr

/-- Environment of resolveModuleLatest: the outcomes of its effectful
calls, in source order. -/
structure ProxyEnv where
  escapePath : Except String String
  newRequestErr : Option String
  doErr : Option String
  statusCode : Nat
  statusText : String
  bodyRead : Except String String
  jsonDecode : Except String ModVersion

/-- part_001 resolveModuleLatest, lines 19-56: resolves the latest
version of a module through the Go module proxy.  A non-200 status, an
unparseable JSON body, and an empty version each produce an error
wrapping errRemote; request-building and transport failures wrap
errServer; a bad module path wraps no sentinel. -/
def resolveModuleLatest (env : ProxyEnv) : Except Err ModVersion :=
  match env.escapePath with
  | .error e => .error ⟨[], "bad module path: " ++ e⟩
  | .ok _ =>
    match env.newRequestErr with
    | some e => .error ⟨[Sentinel.server], "preparing goproxy http request: " ++ e⟩
    | none =>
      match env.doErr with
      | some e => .error ⟨[Sentinel.server], "http request to goproxy: " ++ e⟩
      | none =>
        if env.statusCode ≠ 200 then
          let msg :=
            match env.bodyRead with
            | .ok b => b
            | .error e => "reading error message: " ++ e
          .error ⟨[Sentinel.remote],
            "error response from goproxy, status " ++ env.statusText ++ ":\n" ++ msg⟩
        else
          match env.jsonDecode with
          | .error e => .error ⟨[Sentinel.remote], "parsing json returned by goproxy: " ++ e⟩
          | .ok info =>
            if info.version = "" then
              .error ⟨[Sentinel.remote], "empty version from goproxy"⟩
            else .ok info

/- ===== Toolchain manager: ensureSDK (src/unnamed/part_000, 222-305) ===== -/

/-- The mutable state touched by ensureSDK: the set of toolchains known
installed (sdk.installed), the fetch-outcome map sdk.fetch.status (an
entry with value none records a successful fetch), and the directory
entries under the SDK dir.  The list fields the claims never touch
(supportedList, installedList) are omitted. -/
structure SdkState where
  installed : List String
  status : List (String × Option Err)
  disk : List String
deriving DecidableEq, Repr

/-- Lookup in the fetch-status association map; an insertion conses, so
the first match is the current binding. -/
def lookupStatus : List (String × Option Err) → String → Option (Option Err)
  | [], _ => none
  | (k, x) :: rest, v => if k = v then some x else lookupStatus rest v

/-- External calls ensureSDK can make, in order: goreleases.ListAll, the
goreleases.FindFile of the matching release, ioutil.TempDir,
goreleases.Fetch, os.Rename. -/
inductive SdkEvent where
  | catalogList
  | catalogFindFile
  | fsTempDir
  | fsFetch
  | fsRename
deriving DecidableEq, Repr

/-- Environment of ensureSDK: outcomes of its external calls. -/
structure SdkEnv where
  listAll : Except String (List String)
  findFile : String → Except String Unit
  tempDir : Except String Unit
  fetch : String → Except String Unit
  rename : String → Except String Unit

/-- strings.Split(goversion[4:], ".")[0]: the first dot-separated
component. -/
def firstDotComponent (s : String) : String :=
  String.mk ((splitChar '.' s.data).headD [])

/-- The validation prelude of ensureSDK (part_000 lines 225-237): the
error returned before any state access, or none when the version string
is acceptable. -/
def validationError (v : String) : Option Err :=
  if ¬ hasPrefixC v "go" then
    some ⟨[Sentinel.badGoversion], "must start with \"go\""⟩
  else if hasPrefixC v "go1" then
    if v.length < 4 ∨ ¬ hasPrefixC v "go1." then
      some ⟨[Sentinel.badGoversion], "old version, must be >=go1.13"⟩
    else
      match parseInt64 (firstDotComponent (String.mk (v.data.drop 4))) with
      | none => some ⟨[Sentinel.badGoversion], "bad version, must be >=go1.13"⟩
      | some num =>
        if num < 13 then some ⟨[Sentinel.badGoversion], "bad version, must be >=go1.13"⟩
        else none
  else none

/-- The toolchain identifiers ensureSDK's prelude accepts. -/
def goversionOK (v : String) : Bool :=
  (validationError v).isNone

/-- Modelled from the spec's validation sentence: the identifier begins
with "go", and either does not match the legacy go1.x shape at all (does
not begin with "go1") or is go1.<minor>... with leading minor-version
number at least 13. -/
def toolchainSpecAllowed (v : String) : Bool :=
  hasPrefixC v "go" &&
    (!hasPrefixC v "go1" ||
      (hasPrefixC v "go1." &&
        match parseInt64 (firstDotComponent (String.mk (v.data.drop 4))) with
        | some num => decide (13 ≤ num)
        | none => false))

/-- part_000 ensureSDK, lines 224-305: validate the version string,
short-circuit on an already-installed toolchain or a remembered fetch
outcome, otherwise list the release catalog and fetch, extract and
rename the archive into place, remembering every fetch failure except
"version not in catalog".  Returns the error (none on success), the new
state, and the external calls made. -/
def ensureSDK (env : SdkEnv) (s : SdkState) (v : String) :
    Option Err × SdkState × List SdkEvent :=
  match validationError v with
  | some e => (some e, s, [])
  | none =>
    if v ∈ s.installed then (none, s, [])
    else
      match lookupStatus s.status v with
      | some cached => (cached, s, [])
      | none =>
        match env.listAll with
        | .error e =>
          let err : Err := ⟨[Sentinel.remote], "listing known releases: " ++ e⟩
          (some err, { s with status := (v, some err) :: s.status }, [.catalogList])
        | .ok rels =>
          if v ∈ rels then
            match env.findFile v with
            | .error e =>
              let err : Err := ⟨[Sentinel.server], "finding release file: " ++ e⟩
              (some err, { s with status := (v, some err) :: s.status },
                [.catalogList, .catalogFindFile])
            | .ok _ =>
              match env.tempDir with
              | .error e =>
                let err : Err := ⟨[Sentinel.server], "making tempdir for sdk: " ++ e⟩
                (some err, { s with status := (v, some err) :: s.status },
                  [.catalogList, .catalogFindFile, .fsTempDir])
              | .ok _ =>
                match env.fetch v with
                | .error e =>
                  let err : Err := ⟨[Sentinel.server], "installing sdk: " ++ e⟩
                  (some err, { s with status := (v, some err) :: s.status },
                    [.catalogList, .catalogFindFile, .fsTempDir, .fsFetch])
                | .ok _ =>
                  match env.rename v with
                  | .error e =>
                    let err : Err := ⟨[Sentinel.server], "putting sdk in place: " ++ e⟩
                    (some err, { s with status := (v, some err) :: s.status },
                      [.catalogList, .catalogFindFile, .fsTempDir, .fsFetch, .fsRename])
                  | .ok _ =>
                    (none,
                      { installed := v :: s.installed,
                        status := (v, none) :: s.status,
                        disk := v :: s.disk },
                      [.catalogList, .catalogFindFile, .fsTempDir, .fsFetch, .fsRename])
          else
            (some ⟨[Sentinel.badGoversion], "no such version"⟩, s, [.catalogList])

/-- State invariant maintained by initSDK and ensureSDK: a go-prefixed
name is in the installed set exactly when its tree is on disk; a
remembered successful fetch implies membership in the installed set; and
remembered fetch errors never carry the bad-goversion sentinel. -/
def sdkInv (s : SdkState) : Prop :=
  (∀ v : String, v ∈ s.installed ↔ (hasPrefixC v "go" = true ∧ v ∈ s.disk)) ∧
  (∀ v : String, lookupStatus s.status v = some none → v ∈ s.installed) ∧
  (∀ (v : String) (e : Err), lookupStatus s.status v = some (some e) →
    Sentinel.badGoversion ∉ e.kinds)

/-- The weakest part of the invariant: remembered fetch errors never
carry the bad-goversion sentinel. -/
def statusWF (s : SdkState) : Prop :=
  ∀ (v : String) (e : Err), lookupStatus s.status v = some (some e) →
    Sentinel.badGoversion ∉ e.kinds

/- ===== Popularity tracker: xtargets (src/unnamed/part_000, 20-127) ===== -/

/-- A build target, goos/goarch pair. -/
structure Target where
  goos : String
  goarch : String
deriving DecidableEq, Repr

/-- part_000 osarch. -/
def Target.osarch (t : Target) : String :=
  t.goos ++ "/" ++ t.goarch

/-- The xtargets state: the per-target use map, the total observation
count, and the target list. -/
structure Xtargets where
  use : List (String × Nat)
  totalUse : Nat
  list : List Target
deriving DecidableEq, Repr

/-- t.use[target]++ on a Go map: increment the binding, inserting 1 when
the key is absent. -/
def bumpUse : List (String × Nat) → String → List (String × Nat)
  | [], k => [(k, 1)]
  | (k2, n) :: rest, k =>
    if k2 = k then (k2, n + 1) :: rest else (k2, n) :: bumpUse rest k

/-- Read a use count, 0 for an absent key (Go map zero value). -/
def lookupUse : List (String × Nat) → String → Nat
  | [], _ => 0
  | (k2, n) :: rest, k => if k2 = k then n else lookupUse rest k

/-- Insert into a list already sorted by strictly descending use count,
the comparator of part_000's sort (use[i] > use[j]). -/
def insertDesc (use : List (String × Nat)) (t : Target) : List Target → List Target
  | [] => [t]
  | u :: rest =>
    if lookupUse use t.osarch > lookupUse use u.osarch then t :: u :: rest
    else u :: insertDesc use t rest

/-- part_000 xtargets.sort, lines 110-117: re-sort the target list by
descending use count (sort.Slice leaves the order among equal counts
unspecified; this model picks insertion order). -/
def Xtargets.sort (s : Xtargets) : Xtargets :=
  { s with list := (s.list.foldr (insertDesc s.use) []) }

/-- part_000 xtargets.increase, lines 119-127: bump the target's count
and the total, then re-sort while the total is at most 32 or at every
multiple of 32.  The Bool reports whether sort was invoked. -/
def Xtargets.increase (s : Xtargets) (tgt : String) : Xtargets × Bool :=
  let s1 : Xtargets := { s with use := bumpUse s.use tgt, totalUse := s.totalUse + 1 }
  if s1.totalUse ≤ 32 ∨ s1.totalUse % 32 = 0 then (s1.sort, true) else (s1, false)

/- ===== HTTP mux and method handling (serve.go 250-301, home.go) ===== -/

/-- The handlers registered on the serve mux (serve.go lines 250-301),
with "/" falling through to serveHome.  The tlog handlers are only
registered when a signer key is configured and are outside the claims'
path list. -/
inductive Route where
  | robots
  | favicon
  | faviconBuilding
  | faviconError
  | emptyconfig
  | danceGif
  | legacyM
  | legacyB
  | legacyR
  | home
deriving DecidableEq, Repr

/-- http.ServeMux dispatch for the registered patterns: exact paths for
the file-like entries, prefix match for the legacy redirect patterns,
"/" as the catch-all. -/
def route (p : String) : Route :=
  if p = "/robots.txt" then .robots
  else if p = "/favicon.ico" then .favicon
  else if p = "/favicon-building.png" then .faviconBuilding
  else if p = "/favicon-error.png" then .faviconError
  else if p = "/emptyconfig" then .emptyconfig
  else if p = "/img/gopher-dance-long.gif" then .danceGif
  else if hasPrefixC p "/m/" then .legacyM
  else if hasPrefixC p "/b/" then .legacyB
  else if hasPrefixC p "/r/" then .legacyR
  else .home

/-- The response status of the mux for a method and path.  The static
handlers write their bodies for any method (implicit 200); the legacy
handlers issue http.Redirect with StatusTemporaryRedirect for any
method; serveHome (home.go lines 13-16) rejects non-GET with 405 and
otherwise continues into the page logic abstracted as homeGET. -/
def handlerStatus (m p : String) (homeGET : String → Nat) : Nat :=
  match route p with
  | .robots => 200
  | .favicon => 200
  | .faviconBuilding => 200
  | .faviconError => 200
  | .emptyconfig => 200
  | .danceGif => 200
  | .legacyM => 307
  | .legacyB => 307
  | .legacyR => 307
  | .home => if m ≠ "GET" then 405 else homeGET p

/- ===== Landing page recents (home.go lines 25-46) ===== -/

/-- One iteration's effect in serveHome's reversal loop:
recentLinks[i], recentLinks[j] = recentLinks[j], recentLinks[i].
Out-of-range indices leave the list unchanged (they never occur in the
loop). -/
def swapPair (l : List α) (i j : Nat) : List α :=
  match l.get? i, l.get? j with
  | some x, some y => (l.set i y).set j x
  | _, _ => l

/-- home.go lines 30-34: for i := 0; i < n/2; i++ swap positions i and
n-1-i, n fixed at the list's initial length. -/
def revLoopN (n : Nat) (l : List α) (i : Nat) : List α :=
  if i < n / 2 then revLoopN n (swapPair l i (n - 1 - i)) (i + 1) else l
termination_by n / 2 - i
decreasing_by omega

/-- home.go lines 25-46, the landing-page branch: copy
recentBuilds.links under the mutex (append to a fresh slice, so the copy
shares no storage), reverse the copy in place, render it.  Returns the
links handed to the template and the recentBuilds.links value after the
handler. -/
def serveHomeLanding (links : List String) : List String × List String :=
  let recentLinks := links
  (revLoopN recentLinks.length recentLinks 0, links)

/- ===== Startup verification: verifySumState (serve.go 421-489) ===== -/

/-- The fields of a parsed transparency-log record that verifySumState
consumes (parseRecord itself lives outside the provided source files and
is captured through the environment). -/
structure SumRec where
  sum : String
deriving DecidableEq, Repr

/-- Environment of verifySumState: outcomes of its effectful calls and
the external tlog library functions, in source order.  readHashesAt
takes the byte offset and length the source computes; binaryOpen,
gzipNewReader and binaryReadAll split the open / gzip-reader / io.Copy
failure points of the binary.gz check; sha256 is the hash function
applied to the decompressed bytes. -/
structure SumEnv where
  treeSize : Except String Int
  hashesSize : Except String Int
  storedHashCount : Int → Int
  storedHashIndex : Int → Int
  readRecords : Int → Except String (List Nat)
  storedHashes : Int → List Nat → Except String (List (List Nat))
  readHashesAt : Int → Nat → Except String (List Nat)
  parseRecord : List Nat → Except String SumRec
  readRecordnumber : SumRec → Except String String
  binaryOpen : SumRec → Except String Unit
  gzipNewReader : SumRec → Except String Unit
  binaryReadAll : SumRec → Except String (List Nat)
  sha256 : List Nat → List Nat
  binaryClose : SumRec → Option String

/-- The loop of serve.go lines 451-457: each recomputed hash must be
byte-equal to the 32-byte slice of the hashes-file read at its offset. -/
def checkHashes : List (List Nat) → List Nat → Bool
  | [], _ => true
  | h :: rest, buf => (buf.take 32 = h : Bool) && checkHashes rest (buf.drop 32)

/-- serve.go verifySumState, lines 421-489: check that the hashes file
size matches the stored-hash count for the tree size; for a non-empty
log recompute the last record's stored hashes and compare them with the
hashes file, check the recordnumber file of the last record's artifact
directory, and check the sum of the decompressed binary.gz against the
record; return the record count. -/
def verifySumState (env : SumEnv) : Except String Int :=
  match env.treeSize with
  | .error e => .error ("finding number of records in tlog: " ++ e)
  | .ok numRecords =>
    match env.hashesSize with
    | .error e => .error ("stat on hashes file: " ++ e)
    | .ok size =>
      if env.storedHashCount numRecords * 32 ≠ size then
        .error "inconsistent size of hashes file"
      else if numRecords = 0 then .ok 0
      else
        match env.readRecords (numRecords - 1) with
        | .error e => .error ("reading last record: " ++ e)
        | .ok rec0 =>
          match env.storedHashes (numRecords - 1) rec0 with
          | .error e => .error ("calculating hashes for most recent record: " ++ e)
          | .ok hashes =>
            match env.readHashesAt (env.storedHashIndex (numRecords - 1) * 32)
                (hashes.length * 32) with
            | .error e => .error ("reading hashes for verification: " ++ e)
            | .ok buf =>
              if ¬ checkHashes hashes buf then
                .error "hash mismatch for last record"
              else
                match env.parseRecord rec0 with
                | .error e => .error ("parsing last record: " ++ e)
                | .ok record =>
                  match env.readRecordnumber record with
                  | .error e => .error ("open recordnumber: " ++ e)
                  | .ok content =>
                    match parseInt64 content with
                    | none => .error "parse recordnumber from file"
                    | some num =>
                      if num ≠ numRecords - 1 then
                        .error "inconsistent last recordnumber"
                      else
                        match env.binaryOpen record with
                        | .error e => .error ("open binary.gz for verification: " ++ e)
                        | .ok _ =>
                          match env.gzipNewReader record with
                          | .error e => .error ("gzip reader for binary.gz: " ++ e)
                          | .ok _ =>
                            match env.binaryReadAll record with
                            | .error e => .error ("reading binary.gz for verification: " ++ e)
                            | .ok bs =>
                              if "0" ++ String.mk (base64RawURL ((env.sha256 bs).take 20))
                                  ≠ record.sum then
                                .error "latest binary.gz sum mismatch"
                              else
                                match env.binaryClose record with
                                | some e => .error ("close binary.gz: " ++ e)
                                | none => .ok numRecords

/-- serve.go lines 226-231: serve aborts startup (log.Fatal, modelled as
none) when verifySumState errors, and otherwise records the count. -/
def serveStartup (env : SumEnv) : Option Int :=
  match verifySumState env with
  | .error _ => none
  | .ok n => some n

/-- The hash-consistency condition of the claim: the stored hashes
recomputed from the last record are byte-equal to the corresponding
bytes of the hashes file. -/
def HashesMatch (env : SumEnv) (n : Int) : Prop :=
  ∃ rec0 hashes buf,
    env.readRecords (n - 1) = .ok rec0 ∧
    env.storedHashes (n - 1) rec0 = .ok hashes ∧
    env.readHashesAt (env.storedHashIndex (n - 1) * 32) (hashes.length * 32) = .ok buf ∧
    checkHashes hashes buf = true

/-- The recordnumber condition of the claim: the recordnumber file in
the last record's artifact directory parses as n-1. -/
def RecnumOK (env : SumEnv) (n : Int) : Prop :=
  ∃ rec0 record content,
    env.readRecords (n - 1) = .ok rec0 ∧
    env.parseRecord rec0 = .ok record ∧
    env.readRecordnumber record = .ok content ∧
    parseInt64 content = some (n - 1)

/-- The sum condition of the claim: the SHA-256 of the decompressed
binary.gz, truncated to 20 bytes, base64-url-no-pad encoded and prefixed
with "0", equals the record's sum. -/
def SumOK (env : SumEnv) (n : Int) : Prop :=
  ∃ rec0 record bs,
    env.readRecords (n - 1) = .ok rec0 ∧
    env.parseRecord rec0 = .ok record ∧
    env.binaryOpen record = .ok () ∧
    env.gzipNewReader record = .ok () ∧
    env.binaryReadAll record = .ok bs ∧
    "0" ++ String.mk (base64RawURL ((env.sha256 bs).take 20)) = record.sum

/- ===== Concrete instances used by counterexamples and witnesses ===== -/

/-- A module-proxy environment in which the proxy answers 404. -/
def env404 : ProxyEnv :=
  ⟨.ok "example.com/x", none, none, 404, "404 Not Found", .ok "not found", .error "unused"⟩

/-- The error resolveModuleLatest produces for env404. -/
def e404 : Err :=
  ⟨[Sentinel.remote], "error response from goproxy, status 404 Not Found:\nnot found"⟩

/- C2 -/

/-- An SDK environment in which every external call fails. -/
def envX : SdkEnv :=
  ⟨.error "x", fun _ => .error "x", .error "x", fun _ => .error "x", fun _ => .error "x"⟩

/-- An SDK state whose installed set and disk hold only the unsupported
toolchain go1.10, as initSDK would build it from such a disk. -/
def sBad : SdkState := ⟨["go1.10"], [], ["go1.10"]⟩

/-- The empty SDK state, as after initSDK over an empty SDK directory. -/
def s0 : SdkState := ⟨[], [], []⟩

/-- A one-target popularity state with no observations yet. -/
def xt0 : Xtargets := ⟨[("linux/amd64", 0)], 0, [⟨"linux", "amd64"⟩]⟩

/-- A sum-verification environment for an empty log: zero records and an
empty hashes file. -/
def env0C1 : SumEnv :=
  { treeSize := .ok 0, hashesSize := .ok 0,
    storedHashCount := fun _ => 0, storedHashIndex := fun _ => 0,
    readRecords := fun _ => .error "unused",
    storedHashes := fun _ _ => .error "unused",
    readHashesAt := fun _ _ => .error "unused",
    parseRecord := fun _ => .error "unused",
    readRecordnumber := fun _ => .error "unused",
    binaryOpen := fun _ => .error "unused",
    gzipNewReader := fun _ => .error "unused",
    binaryReadAll := fun _ => .error "unused",
    sha256 := fun _ => [],
    binaryClose := fun _ => none }

/- ===== Helper lemmas ===== -/

/-- Every error of ensureSDK's validation prelude wraps errBadGoversion
and nothing else. -/
theorem validationError_kinds {v : String} {e : Err} (h : validationError v = some e) :
    e.kinds = [Sentinel.badGoversion] := by
  unfold validationError at h
  split at h
  · cases h; rfl
  · split at h
    · split at h
      · cases h; rfl
      · split at h
        · cases h; rfl
        · split at h
          · cases h; rfl
          · cases h
    · cases h

/-- A version string accepted by the validation prelude begins with
"go". -/
theorem validationError_go {v : String} (h : validationError v = none) :
    hasPrefixC v "go" = true := by
  unfold validationError at h
  split at h
  · cases h
  · rename_i hp
    simpa using hp

/-- A string with "go1." at its head has at least four characters. -/
theorem go1dot_length {v : String} (h : hasPrefixC v "go1." = true) :
    4 ≤ v.length := by
  unfold hasPrefixC at h
  have hpre := List.isPrefixOf_iff_prefix.mp h
  have h2 := hpre.length_le
  have h3 : v.length = v.data.length := rfl
  simp at h2
  omega

/-- The validation prelude accepts exactly the identifiers allowed by
the spec's validation sentence. -/
theorem validation_none_iff (v : String) :
    validationError v = none ↔ toolchainSpecAllowed v = true := by
  unfold validationError toolchainSpecAllowed
  by_cases h1 : hasPrefixC v "go"
  · by_cases h2 : hasPrefixC v "go1"
    · by_cases h3 : hasPrefixC v "go1."
      · have hlen : ¬ (v.length < 4) := by
          have := go1dot_length h3
          omega
        simp [h1, h2, h3, hlen]
        cases hp : parseInt64 (firstDotComponent (String.mk (v.data.drop 4))) with
        | none => simp
        | some num =>
          by_cases hn : num < 13
          · simp [hn]
          · simp [hn]
            omega
      · have h4 : (v.length < 4 ∨ ¬ hasPrefixC v "go1." = true) := by simp [h3]
        simp [h1, h2, h3, h4]
    · simp [h1, h2]
  · simp [h1]

/- concrete instances -/

/-- goversionOK unfolded. -/
theorem goversionOK_eq_none {v : String} (hok : goversionOK v = true) :
    validationError v = none := by
  unfold goversionOK at hok
  exact Option.isNone_iff_eq_none.mp hok

/-- ensureSDK on an installed version returns nil at once. -/
theorem ensureSDK_installed (env : SdkEnv) (s : SdkState) (v : String)
    (hval : validationError v = none) (hi : v ∈ s.installed) :
    ensureSDK env s v = (none, s, []) := by
  simp [ensureSDK, hval, hi]

/-- ensureSDK on a remembered fetch outcome replays it without external
calls. -/
theorem ensureSDK_after_status (env : SdkEnv) (s : SdkState) (v : String) (x : Option Err)
    (hval : validationError v = none) (hi : v ∉ s.installed)
    (hlk : lookupStatus s.status v = some x) :
    ensureSDK env s v = (x, s, []) := by
  simp [ensureSDK, hval, hi, hlk]

/-- Once ensureSDK reaches the catalog, every outcome's event trace
contains the catalog listing. -/
theorem catalogList_mem (env2 : SdkEnv) (s : SdkState) (v : String)
    (hval : validationError v = none) (hi : v ∉ s.installed)
    (hlk : lookupStatus s.status v = none) :
    SdkEvent.catalogList ∈ (ensureSDK env2 s v).2.2 := by
  cases hla : env2.listAll with
  | error err => simp [ensureSDK, hval, hi, hlk, hla]
  | ok rels =>
    by_cases hm : v ∈ rels
    · cases hf : env2.findFile v with
      | error e => simp [ensureSDK, hval, hi, hlk, hla, hm, hf]
      | ok u =>
        cases ht : env2.tempDir with
        | error e => simp [ensureSDK, hval, hi, hlk, hla, hm, hf, ht]
        | ok u2 =>
          cases hfe : env2.fetch v with
          | error e => simp [ensureSDK, hval, hi, hlk, hla, hm, hf, ht, hfe]
          | ok u3 =>
            cases hre : env2.rename v with
            | error e => simp [ensureSDK, hval, hi, hlk, hla, hm, hf, ht, hfe, hre]
            | ok u4 => simp [ensureSDK, hval, hi, hlk, hla, hm, hf, ht, hfe, hre]
    · simp [ensureSDK, hval, hi, hlk, hla, hm]

/-- Reading just past a block of known length lands on the next cell. -/
theorem get_append_length (xs : List α) (y : α) (zs : List α) :
    (xs ++ y :: zs).get? xs.length = some y := by
  induction xs with
  | nil => rfl
  | cons a xs ih => simpa using ih

/-- Writing just past a block of known length replaces the next cell. -/
theorem set_append_length (xs : List α) (y z : α) (zs : List α) :
    (xs ++ y :: zs).set xs.length z = xs ++ z :: zs := by
  induction xs with
  | nil => rfl
  | cons a xs ih => simp [List.set, ih]

/-- One iteration of the reversal loop swaps the outermost cells of the
untouched middle section. -/
theorem swapPair_decomp (A : List α) (m0 : α) (mid : List α) (mL : α) (B : List α) :
    swapPair (A ++ (m0 :: (mid ++ [mL])) ++ B) A.length (A.length + mid.length + 1)
      = A ++ (mL :: (mid ++ [m0])) ++ B := by
  have hview1 : A ++ (m0 :: (mid ++ [mL])) ++ B = A ++ m0 :: (mid ++ mL :: B) := by
    simp
  have hview2 : A ++ (m0 :: (mid ++ [mL])) ++ B = (A ++ m0 :: mid) ++ mL :: B := by
    simp
  have hlen2 : (A ++ m0 :: mid).length = A.length + mid.length + 1 := by
    simp
    omega
  have hget1 : (A ++ (m0 :: (mid ++ [mL])) ++ B).get? A.length = some m0 := by
    rw [hview1]
    exact get_append_length A m0 (mid ++ mL :: B)
  have hget2 : (A ++ (m0 :: (mid ++ [mL])) ++ B).get? (A.length + mid.length + 1) = some mL := by
    rw [hview2, ← hlen2]
    exact get_append_length (A ++ m0 :: mid) mL B
  unfold swapPair
  simp only [hget1, hget2]
  have hset1 : (A ++ (m0 :: (mid ++ [mL])) ++ B).set A.length mL
      = A ++ mL :: (mid ++ mL :: B) := by
    rw [hview1]
    exact set_append_length A m0 mL (mid ++ mL :: B)
  rw [hset1]
  have hview3 : A ++ mL :: (mid ++ mL :: B) = (A ++ mL :: mid) ++ mL :: B := by
    simp
  have hlen3 : (A ++ mL :: mid).length = A.length + mid.length + 1 := by
    simp
    omega
  rw [hview3, ← hlen3, set_append_length (A ++ mL :: mid) mL m0 B]
  simp

/-- Loop invariant of the in-place reversal: with i positions settled at
both ends, running the loop from i reverses the middle. -/
theorem revLoopN_inv (k : Nat) :
    ∀ (M A B : List α), M.length ≤ k → A.length = B.length →
      revLoopN (A.length + M.length + B.length) (A ++ M ++ B) A.length
        = A ++ M.reverse ++ B := by
  induction k with
  | zero =>
    intro M A B hM hAB
    have hMnil : M = [] := List.length_eq_zero.mp (Nat.le_zero.mp hM)
    subst hMnil
    rw [revLoopN]
    rw [if_neg (by omega)]
    simp
  | succ k ih =>
    intro M A B hM hAB
    by_cases hsmall : M.length < 2
    · have hrev : M.reverse = M := by
        cases M with
        | nil => rfl
        | cons a t =>
          cases t with
          | nil => rfl
          | cons b t2 =>
            exfalso
            simp at hsmall
            omega
      rw [revLoopN]
      rw [if_neg (by omega)]
      rw [hrev]
    · obtain ⟨m0, rest, hM0⟩ : ∃ m0 rest, M = m0 :: rest := by
        cases M with
        | nil => simp at hsmall
        | cons a t => exact ⟨a, t, rfl⟩
      have hrest : rest ≠ [] := by
        intro h
        rw [hM0, h] at hsmall
        simp at hsmall
      obtain ⟨mid, mL, hrest2⟩ : ∃ mid mL, rest = mid ++ [mL] := by
        rcases List.eq_nil_or_concat rest with h | ⟨mid, mL, h⟩
        · exact absurd h hrest
        · exact ⟨mid, mL, by simpa [List.concat_eq_append] using h⟩
      subst hrest2
      subst hM0
      rw [revLoopN]
      rw [if_pos (by simp; omega)]
      have hidx : A.length + (m0 :: (mid ++ [mL])).length + B.length - 1 - A.length
          = A.length + mid.length + 1 := by
        simp
        omega
      rw [hidx, swapPair_decomp A m0 mid mL B]
      have hstep : A.length + 1 = (A ++ [mL]).length := by simp
      have hlist : A ++ (mL :: (mid ++ [m0])) ++ B = (A ++ [mL]) ++ mid ++ (m0 :: B) := by
        simp
      have hn : A.length + (m0 :: (mid ++ [mL])).length + B.length
          = (A ++ [mL]).length + mid.length + (m0 :: B).length := by
        simp
        omega
      rw [hstep, hlist, hn]
      rw [ih mid (A ++ [mL]) (m0 :: B) (by simp at hM ⊢; omega) (by simp; omega)]
      simp

/-- The in-place reversal loop of serveHome reverses the list. -/
theorem revLoopN_reverse (l : List α) : revLoopN l.length l 0 = l.reverse := by
  have h := revLoopN_inv l.length l [] [] (le_refl _) rfl
  simpa using h

/- ===== Claims ===== -/

/-- C1: verifySumState returns the record count n without error only
when the hashes file size equals 32 * storedHashCount(n) and, for n > 0,
the recomputed stored hashes of the last record are byte-equal to the
hashes file, the recordnumber file parses as n-1, and the truncated
SHA-256 sum of the decompressed binary.gz equals the record's sum; it
returns an error, which terminates startup, whenever the size check or
any of those checks fails; and for n = 0 the size check alone suffices
and 0 is returned. -/
theorem c1_verifySumState_checks (env : SumEnv) :
    (∀ n, verifySumState env = .ok n →
      env.treeSize = .ok n ∧
      env.hashesSize = .ok (env.storedHashCount n * 32) ∧
      (0 < n → HashesMatch env n ∧ RecnumOK env n ∧ SumOK env n)) ∧
    (∀ n sz, env.treeSize = .ok n → env.hashesSize = .ok sz →
      sz ≠ env.storedHashCount n * 32 → ∃ e, verifySumState env = .error e) ∧
    (∀ n, env.treeSize = .ok n → 0 < n →
      ¬ (HashesMatch env n ∧ RecnumOK env n ∧ SumOK env n) →
      ∃ e, verifySumState env = .error e) ∧
    (env.treeSize = .ok 0 → env.hashesSize = .ok (env.storedHashCount 0 * 32) →
      verifySumState env = .ok 0) ∧
    (∀ e, verifySumState env = .error e → serveStartup env = none) := by
  have hA : ∀ n, verifySumState env = .ok n →
      env.treeSize = .ok n ∧
      env.hashesSize = .ok (env.storedHashCount n * 32) ∧
      (0 < n → HashesMatch env n ∧ RecnumOK env n ∧ SumOK env n) := by
    intro n h
    unfold verifySumState at h
    cases htz : env.treeSize with
    | error e =>
      simp only [htz] at h
      cases h
    | ok numRecords =>
      simp only [htz] at h
      cases hhs : env.hashesSize with
      | error e =>
        simp only [hhs] at h
        cases h
      | ok size =>
        simp only [hhs] at h
        by_cases hsz : env.storedHashCount numRecords * 32 ≠ size
        · rw [if_pos hsz] at h
          cases h
        · rw [if_neg hsz] at h
          have hsz2 : env.storedHashCount numRecords * 32 = size := not_not.mp hsz
          by_cases h0 : numRecords = 0
          · rw [if_pos h0] at h
            have hn : n = 0 := by
              cases h
              rfl
            subst hn
            subst h0
            refine ⟨rfl, by rw [← hsz2], fun hpos => absurd hpos (by omega)⟩
          · rw [if_neg h0] at h
            cases hrr : env.readRecords (numRecords - 1) with
            | error e =>
                simp only [hrr] at h
                cases h
            | ok rec0 =>
              simp only [hrr] at h
              cases hsh : env.storedHashes (numRecords - 1) rec0 with
              | error e =>
                simp only [hsh] at h
                cases h
              | ok hashes =>
                simp only [hsh] at h
                cases hra : env.readHashesAt (env.storedHashIndex (numRecords - 1) * 32)
                    (hashes.length * 32) with
                | error e =>
                simp only [hra] at h
                cases h
                | ok buf =>
                  simp only [hra] at h
                  by_cases hch : checkHashes hashes buf
                  · rw [if_neg (by simpa using hch)] at h
                    cases hpr : env.parseRecord rec0 with
                    | error e =>
                simp only [hpr] at h
                cases h
                    | ok record =>
                      simp only [hpr] at h
                      cases hrn : env.readRecordnumber record with
                      | error e =>
                simp only [hrn] at h
                cases h
                      | ok content =>
                        simp only [hrn] at h
                        cases hpi : parseInt64 content with
                        | none =>
                          simp only [hpi] at h
                          cases h
                        | some num =>
                          simp only [hpi] at h
                          by_cases hnum : num = numRecords - 1
                          · rw [if_neg (by simpa using hnum)] at h
                            cases hbo : env.binaryOpen record with
                            | error e =>
                simp only [hbo] at h
                cases h
                            | ok u =>
                              simp only [hbo] at h
                              cases hgz : env.gzipNewReader record with
                              | error e =>
                simp only [hgz] at h
                cases h
                              | ok u2 =>
                                simp only [hgz] at h
                                cases hba : env.binaryReadAll record with
                                | error e =>
                simp only [hba] at h
                cases h
                                | ok bs =>
                                  simp only [hba] at h
                                  by_cases hsum :
                                      "0" ++ String.mk (base64RawURL ((env.sha256 bs).take 20))
                                        = record.sum
                                  · rw [if_neg (by simpa using hsum)] at h
                                    cases hcl : env.binaryClose record with
                                    | some e =>
                                      simp only [hcl] at h
                                      cases h
                                    | none =>
                                      simp only [hcl] at h
                                      have hn : n = numRecords := by
                                        cases h
                                        rfl
                                      subst hn
                                      refine ⟨rfl, by rw [← hsz2], fun hpos => ?_⟩
                                      subst hnum
                                      exact ⟨⟨rec0, hashes, buf, hrr, hsh, hra, by simpa using hch⟩,
                                        ⟨rec0, record, content, hrr, hpr, hrn, hpi⟩,
                                        ⟨rec0, record, bs, hrr, hpr, hbo, hgz, hba, hsum⟩⟩
                                  · rw [if_pos (by simpa using hsum)] at h
                                    cases h
                          · rw [if_pos (by simpa using hnum)] at h
                            cases h
                  · rw [if_pos (by simpa using hch)] at h
                    cases h
  refine ⟨hA, ?_, ?_, ?_, ?_⟩
  · intro n sz htz hhs hne
    refine ⟨"inconsistent size of hashes file", ?_⟩
    unfold verifySumState
    simp only [htz, hhs]
    rw [if_pos (fun hcontra => hne hcontra.symm)]
  · intro n htz hpos hnot
    cases hv : verifySumState env with
    | error e => exact ⟨e, rfl⟩
    | ok m =>
      obtain ⟨htz2, _, hc⟩ := hA m hv
      rw [htz] at htz2
      have hm : n = m := by
        cases htz2
        rfl
      subst hm
      exact absurd (hc hpos) hnot
  · intro htz hhs
    unfold verifySumState
    simp only [htz, hhs]
    simp
  · intro e he
    unfold serveStartup
    rw [he]

/-- Witness for C1: on an empty log whose hashes file is empty,
verifySumState succeeds with count 0. -/
theorem c1_verifySumState_checks_witness : verifySumState env0C1 = Except.ok 0 :=
  (c1_verifySumState_checks env0C1).2.2.2.1 rfl rfl

/-- C2 counterexample: a 404 from the module proxy yields an error of
remote kind which failf renders with status 400, not 500. -/
theorem c2_remote_failf_counterexample :
    resolveModuleLatest env404 = .error e404 ∧ errorsIs e404 Sentinel.remote = true ∧
      failfStatus e404 ≠ 500 := by
  refine ⟨rfl, by decide, by decide⟩

/-- C2 amended: every error of remote kind produced by
resolveModuleLatest is rendered by failf with status 400, because failf
maps only errServer-wrapped errors to 500. -/
theorem c2_remote_renders_400 (env : ProxyEnv) (e : Err)
    (h : resolveModuleLatest env = .error e)
    (hr : errorsIs e Sentinel.remote = true) : failfStatus e = 400 := by
  unfold resolveModuleLatest at h
  split at h
  · cases h
    simp [errorsIs] at hr
  · split at h
    · cases h
      cases hr
    · split at h
      · cases h
        cases hr
      · split at h
        · cases h
          rfl
        · split at h
          · cases h
            rfl
          · split at h
            · cases h
              rfl
            · cases h

/-- Witness for C2 at the 404 environment. -/
theorem c2_remote_renders_400_witness : failfStatus e404 = 400 :=
  c2_remote_renders_400 env404 e404 rfl (by decide)

/- C6 -/

/-- C3: ensureSDK returns a bad-goversion error before any catalog
access or filesystem I/O exactly when the identifier fails the spec's
validation: it must begin with "go" and either not match the legacy
go1.x shape at all or carry a leading minor-version number of at least
13. -/
theorem c3_validation_gate (env : SdkEnv) (s : SdkState) (v : String)
    (hwf : statusWF s) :
    (∃ e, (ensureSDK env s v).1 = some e ∧ Sentinel.badGoversion ∈ e.kinds ∧
        (ensureSDK env s v).2.2 = [] ∧ (ensureSDK env s v).2.1 = s)
      ↔ toolchainSpecAllowed v = false := by
  constructor
  · rintro ⟨e, he, hbad, hev, hst⟩
    cases hTA : toolchainSpecAllowed v
    · rfl
    · exfalso
      have hval : validationError v = none := (validation_none_iff v).mpr hTA
      unfold ensureSDK at he hev
      rw [hval] at he hev
      by_cases hi : v ∈ s.installed
      · rw [if_pos hi] at he
        simp at he
      · simp only [if_neg hi] at he hev
        cases hlk : lookupStatus s.status v with
        | some cached =>
          simp only [hlk] at he
          cases cached with
          | none => simp at he
          | some e2 =>
            simp at he
            subst he
            exact hwf _ _ hlk hbad
        | none =>
          simp only [hlk] at he hev
          cases hla : env.listAll with
          | error err =>
            simp only [hla] at hev
            simp at hev
          | ok rels =>
            simp only [hla] at he hev
            by_cases hm : v ∈ rels
            · simp only [if_pos hm] at he hev
              cases hf : env.findFile v with
              | error err =>
                simp only [hf] at hev
                simp at hev
              | ok u =>
                simp only [hf] at he hev
                cases ht : env.tempDir with
                | error err =>
                  simp only [ht] at hev
                  simp at hev
                | ok u2 =>
                  simp only [ht] at he hev
                  cases hfe : env.fetch v with
                  | error err =>
                    simp only [hfe] at hev
                    simp at hev
                  | ok u3 =>
                    simp only [hfe] at he hev
                    cases hre : env.rename v with
                    | error err =>
                      simp only [hre] at hev
                      simp at hev
                    | ok u4 =>
                      simp only [hre] at hev
                      simp at hev
            · simp only [if_neg hm] at hev
              simp at hev
  · intro hF
    cases hval : validationError v with
    | none =>
      rw [(validation_none_iff v).mp hval] at hF
      cases hF
    | some e =>
      refine ⟨e, ?_, ?_, ?_, ?_⟩
      · unfold ensureSDK
        rw [hval]
      · rw [validationError_kinds hval]
        simp
      · unfold ensureSDK
        rw [hval]
      · unfold ensureSDK
        rw [hval]

/-- Witness for C3: go1.10 is rejected before any external call. -/
theorem c3_validation_gate_witness :
    statusWF s0 ∧
      (∃ e, (ensureSDK envX s0 "go1.10").1 = some e ∧
        Sentinel.badGoversion ∈ e.kinds ∧
        (ensureSDK envX s0 "go1.10").2.2 = [] ∧
        (ensureSDK envX s0 "go1.10").2.1 = s0) := by
  have hwf : statusWF s0 := by
    intro v e h
    simp [s0, lookupStatus] at h
  exact ⟨hwf, (c3_validation_gate envX s0 "go1.10" hwf).mpr (by decide)⟩

/-- C4 counterexample: with the unsupported toolchain go1.10 present on
disk and hence in the installed set, ensureSDK does not return nil,
against the claim that it returns nil immediately for every member of
the installed set. -/
theorem c4_installed_counterexample :
    "go1.10" ∈ sBad.installed ∧ sdkInv sBad ∧ (ensureSDK envX sBad "go1.10").1 ≠ none := by
  refine ⟨by decide, ⟨?_, ?_, ?_⟩, by decide⟩
  · intro v
    constructor
    · intro hv
      simp [sBad] at hv
      subst hv
      exact ⟨by decide, by simp [sBad]⟩
    · rintro ⟨hp, hd⟩
      simp [sBad] at hd ⊢
      exact hd
  · intro v h
    simp [sBad, lookupStatus] at h
  · intro v e h
    simp [sBad, lookupStatus] at h

/-- C4 amended: for every identifier that passes version validation,
ensureSDK returns nil immediately when it is in the installed set,
returns nil exactly when sdk/<v> exists on disk after the call, and is
idempotent (the second call returns the same result and leaves the
state unchanged). -/
theorem c4_ensure_disk_iff (env : SdkEnv) (s : SdkState) (v : String)
    (hinv : sdkInv s) (hok : goversionOK v = true) :
    (v ∈ s.installed → ensureSDK env s v = (none, s, [])) ∧
    ((ensureSDK env s v).1 = none ↔ v ∈ (ensureSDK env s v).2.1.disk) ∧
    (ensureSDK env (ensureSDK env s v).2.1 v).1 = (ensureSDK env s v).1 ∧
    (ensureSDK env (ensureSDK env s v).2.1 v).2.1 = (ensureSDK env s v).2.1 := by
  have hval := goversionOK_eq_none hok
  have hgo := validationError_go hval
  obtain ⟨hinv1, hinv2, hinv3⟩ := hinv
  by_cases hi : v ∈ s.installed
  · refine ⟨fun _ => ensureSDK_installed env s v hval hi, ?_, ?_, ?_⟩
    · simp [ensureSDK, hval, hi, ((hinv1 v).mp hi).2]
    · simp [ensureSDK, hval, hi]
    · simp [ensureSDK, hval, hi]
  · have hnd : v ∉ s.disk := fun hd => hi ((hinv1 v).mpr ⟨hgo, hd⟩)
    cases hlk : lookupStatus s.status v with
    | some cached =>
      cases cached with
      | none => exact absurd (hinv2 v hlk) hi
      | some e =>
        refine ⟨fun hi2 => absurd hi2 hi, ?_, ?_, ?_⟩
        · simp [ensureSDK, hval, hi, hlk, hnd]
        · simp [ensureSDK, hval, hi, hlk]
        · simp [ensureSDK, hval, hi, hlk]
    | none =>
      cases hla : env.listAll with
      | error err =>
        refine ⟨fun hi2 => absurd hi2 hi, ?_, ?_, ?_⟩
        · simp [ensureSDK, hval, hi, hlk, hla, hnd]
        · simp [ensureSDK, hval, hi, hlk, hla, lookupStatus]
        · simp [ensureSDK, hval, hi, hlk, hla, lookupStatus]
      | ok rels =>
        by_cases hm : v ∈ rels
        · cases hf : env.findFile v with
          | error err =>
            refine ⟨fun hi2 => absurd hi2 hi, ?_, ?_, ?_⟩
            · simp [ensureSDK, hval, hi, hlk, hla, hm, hf, hnd]
            · simp [ensureSDK, hval, hi, hlk, hla, hm, hf, lookupStatus]
            · simp [ensureSDK, hval, hi, hlk, hla, hm, hf, lookupStatus]
          | ok u =>
            cases ht : env.tempDir with
            | error err =>
              refine ⟨fun hi2 => absurd hi2 hi, ?_, ?_, ?_⟩
              · simp [ensureSDK, hval, hi, hlk, hla, hm, hf, ht, hnd]
              · simp [ensureSDK, hval, hi, hlk, hla, hm, hf, ht, lookupStatus]
              · simp [ensureSDK, hval, hi, hlk, hla, hm, hf, ht, lookupStatus]
            | ok u2 =>
              cases hfe : env.fetch v with
              | error err =>
                refine ⟨fun hi2 => absurd hi2 hi, ?_, ?_, ?_⟩
                · simp [ensureSDK, hval, hi, hlk, hla, hm, hf, ht, hfe, hnd]
                · simp [ensureSDK, hval, hi, hlk, hla, hm, hf, ht, hfe, lookupStatus]
                · simp [ensureSDK, hval, hi, hlk, hla, hm, hf, ht, hfe, lookupStatus]
              | ok u3 =>
                cases hre : env.rename v with
                | error err =>
                  refine ⟨fun hi2 => absurd hi2 hi, ?_, ?_, ?_⟩
                  · simp [ensureSDK, hval, hi, hlk, hla, hm, hf, ht, hfe, hre, hnd]
                  · simp [ensureSDK, hval, hi, hlk, hla, hm, hf, ht, hfe, hre, lookupStatus]
                  · simp [ensureSDK, hval, hi, hlk, hla, hm, hf, ht, hfe, hre, lookupStatus]
                | ok u4 =>
                  refine ⟨fun hi2 => absurd hi2 hi, ?_, ?_, ?_⟩
                  · simp [ensureSDK, hval, hi, hlk, hla, hm, hf, ht, hfe, hre]
                  · simp [ensureSDK, hval, hi, hlk, hla, hm, hf, ht, hfe, hre]
                  · simp [ensureSDK, hval, hi, hlk, hla, hm, hf, ht, hfe, hre]
        · refine ⟨fun hi2 => absurd hi2 hi, ?_, ?_, ?_⟩
          · simp [ensureSDK, hval, hi, hlk, hla, hm, hnd]
          · simp [ensureSDK, hval, hi, hlk, hla, hm]
          · simp [ensureSDK, hval, hi, hlk, hla, hm]

/- C5 -/

/-- Witness for C4: a valid version against an empty state and a failing
catalog. -/
theorem c4_ensure_disk_iff_witness :
    ("go1.21.0" ∈ s0.installed → ensureSDK envX s0 "go1.21.0" = (none, s0, [])) ∧
    ((ensureSDK envX s0 "go1.21.0").1 = none ↔
      "go1.21.0" ∈ (ensureSDK envX s0 "go1.21.0").2.1.disk) ∧
    (ensureSDK envX (ensureSDK envX s0 "go1.21.0").2.1 "go1.21.0").1 =
      (ensureSDK envX s0 "go1.21.0").1 ∧
    (ensureSDK envX (ensureSDK envX s0 "go1.21.0").2.1 "go1.21.0").2.1 =
      (ensureSDK envX s0 "go1.21.0").2.1 := by
  have hinv : sdkInv s0 :=
    ⟨fun v => by simp [s0], fun v h => by simp [s0, lookupStatus] at h,
      fun v e h => by simp [s0, lookupStatus] at h⟩
  exact c4_ensure_disk_iff envX s0 "go1.21.0" hinv (by decide)

/-- C5: after ensureSDK fails with a fetch error (an error not of
bad-goversion kind), the error is remembered and every subsequent call
returns it with no external calls at all; a version-not-in-catalog
failure leaves the state unchanged and a subsequent call consults the
catalog again. -/
theorem c5_negative_cache (env : SdkEnv) (s : SdkState) (v : String) (hwf : statusWF s) :
    (∀ e, (ensureSDK env s v).1 = some e → Sentinel.badGoversion ∉ e.kinds →
      lookupStatus (ensureSDK env s v).2.1.status v = some (some e) ∧
      ∀ env2, ensureSDK env2 (ensureSDK env s v).2.1 v = (some e, (ensureSDK env s v).2.1, [])) ∧
    (∀ e, (ensureSDK env s v).1 = some e → goversionOK v = true →
      Sentinel.badGoversion ∈ e.kinds →
      (ensureSDK env s v).2.1 = s ∧
      SdkEvent.catalogList ∈ (ensureSDK env s v).2.2 ∧
      ∀ env2, SdkEvent.catalogList ∈ (ensureSDK env2 (ensureSDK env s v).2.1 v).2.2) := by
  cases hval : validationError v with
  | some e0 =>
    constructor
    · intro e he hnb
      have h1 : ensureSDK env s v = (some e0, s, []) := by simp [ensureSDK, hval]
      rw [h1] at he
      simp at he
      subst he
      rw [validationError_kinds hval] at hnb
      simp at hnb
    · intro e he hok hbad
      exact absurd (goversionOK_eq_none hok) (by simp [hval])
  | none =>
    by_cases hi : v ∈ s.installed
    · have h1 := ensureSDK_installed env s v hval hi
      constructor
      · intro e he
        rw [h1] at he
        simp at he
      · intro e he
        rw [h1] at he
        simp at he
    · cases hlk : lookupStatus s.status v with
      | some cached =>
        have h1 := ensureSDK_after_status env s v cached hval hi hlk
        constructor
        · intro e he hnb
          rw [h1] at he
          simp at he
          subst he
          rw [h1]
          exact ⟨hlk, fun env2 => ensureSDK_after_status env2 s v (some e) hval hi hlk⟩
        · intro e he hok hbad
          rw [h1] at he
          simp at he
          subst he
          exact absurd hbad (hwf v e hlk)
      | none =>
        cases hla : env.listAll with
        | error err =>
          have h1 : ensureSDK env s v =
              (some ⟨[Sentinel.remote], "listing known releases: " ++ err⟩,
               { s with status := (v, some ⟨[Sentinel.remote],
                   "listing known releases: " ++ err⟩) :: s.status },
               [SdkEvent.catalogList]) := by
            simp [ensureSDK, hval, hi, hlk, hla]
          constructor
          · intro e he hnb
            rw [h1] at he
            simp at he
            subst he
            rw [h1]
            refine ⟨by simp [lookupStatus], fun env2 => ?_⟩
            exact ensureSDK_after_status env2 _ v _ hval (by simpa using hi)
              (by simp [lookupStatus])
          · intro e he hok hbad
            rw [h1] at he
            simp at he
            subst he
            simp at hbad
        | ok rels =>
          by_cases hm : v ∈ rels
          · cases hf : env.findFile v with
            | error err =>
              have h1 : ensureSDK env s v =
                  (some ⟨[Sentinel.server], "finding release file: " ++ err⟩,
                   { s with status := (v, some ⟨[Sentinel.server],
                       "finding release file: " ++ err⟩) :: s.status },
                   [SdkEvent.catalogList, SdkEvent.catalogFindFile]) := by
                simp [ensureSDK, hval, hi, hlk, hla, hm, hf]
              constructor
              · intro e he hnb
                rw [h1] at he
                simp at he
                subst he
                rw [h1]
                refine ⟨by simp [lookupStatus], fun env2 => ?_⟩
                exact ensureSDK_after_status env2 _ v _ hval (by simpa using hi)
                  (by simp [lookupStatus])
              · intro e he hok hbad
                rw [h1] at he
                simp at he
                subst he
                simp at hbad
            | ok u =>
              cases ht : env.tempDir with
              | error err =>
                have h1 : ensureSDK env s v =
                    (some ⟨[Sentinel.server], "making tempdir for sdk: " ++ err⟩,
                     { s with status := (v, some ⟨[Sentinel.server],
                         "making tempdir for sdk: " ++ err⟩) :: s.status },
                     [SdkEvent.catalogList, SdkEvent.catalogFindFile, SdkEvent.fsTempDir]) := by
                  simp [ensureSDK, hval, hi, hlk, hla, hm, hf, ht]
                constructor
                · intro e he hnb
                  rw [h1] at he
                  simp at he
                  subst he
                  rw [h1]
                  refine ⟨by simp [lookupStatus], fun env2 => ?_⟩
                  exact ensureSDK_after_status env2 _ v _ hval (by simpa using hi)
                    (by simp [lookupStatus])
                · intro e he hok hbad
                  rw [h1] at he
                  simp at he
                  subst he
                  simp at hbad
              | ok u2 =>
                cases hfe : env.fetch v with
                | error err =>
                  have h1 : ensureSDK env s v =
                      (some ⟨[Sentinel.server], "installing sdk: " ++ err⟩,
                       { s with status := (v, some ⟨[Sentinel.server],
                           "installing sdk: " ++ err⟩) :: s.status },
                       [SdkEvent.catalogList, SdkEvent.catalogFindFile, SdkEvent.fsTempDir,
                        SdkEvent.fsFetch]) := by
                    simp [ensureSDK, hval, hi, hlk, hla, hm, hf, ht, hfe]
                  constructor
                  · intro e he hnb
                    rw [h1] at he
                    simp at he
                    subst he
                    rw [h1]
                    refine ⟨by simp [lookupStatus], fun env2 => ?_⟩
                    exact ensureSDK_after_status env2 _ v _ hval (by simpa using hi)
                      (by simp [lookupStatus])
                  · intro e he hok hbad
                    rw [h1] at he
                    simp at he
                    subst he
                    simp at hbad
                | ok u3 =>
                  cases hre : env.rename v with
                  | error err =>
                    have h1 : ensureSDK env s v =
                        (some ⟨[Sentinel.server], "putting sdk in place: " ++ err⟩,
                         { s with status := (v, some ⟨[Sentinel.server],
                             "putting sdk in place: " ++ err⟩) :: s.status },
                         [SdkEvent.catalogList, SdkEvent.catalogFindFile, SdkEvent.fsTempDir,
                          SdkEvent.fsFetch, SdkEvent.fsRename]) := by
                      simp [ensureSDK, hval, hi, hlk, hla, hm, hf, ht, hfe, hre]
                    constructor
                    · intro e he hnb
                      rw [h1] at he
                      simp at he
                      subst he
                      rw [h1]
                      refine ⟨by simp [lookupStatus], fun env2 => ?_⟩
                      exact ensureSDK_after_status env2 _ v _ hval (by simpa using hi)
                        (by simp [lookupStatus])
                    · intro e he hok hbad
                      rw [h1] at he
                      simp at he
                      subst he
                      simp at hbad
                  | ok u4 =>
                    have h1 : ensureSDK env s v =
                        (none,
                         { installed := v :: s.installed, status := (v, none) :: s.status,
                           disk := v :: s.disk },
                         [SdkEvent.catalogList, SdkEvent.catalogFindFile, SdkEvent.fsTempDir,
                          SdkEvent.fsFetch, SdkEvent.fsRename]) := by
                      simp [ensureSDK, hval, hi, hlk, hla, hm, hf, ht, hfe, hre]
                    constructor
                    · intro e he
                      rw [h1] at he
                      simp at he
                    · intro e he
                      rw [h1] at he
                      simp at he
          · have h1 : ensureSDK env s v =
                (some ⟨[Sentinel.badGoversion], "no such version"⟩, s, [SdkEvent.catalogList]) := by
              simp [ensureSDK, hval, hi, hlk, hla, hm]
            constructor
            · intro e he hnb
              rw [h1] at he
              simp at he
              subst he
              simp at hnb
            · intro e he hok hbad
              rw [h1]
              exact ⟨rfl, by simp, fun env2 => catalogList_mem env2 s v hval hi hlk⟩

/- C10: the in-place reversal loop -/

/-- Witness for C5: a catalog-listing failure is remembered and replayed
without events. -/
theorem c5_negative_cache_witness :
    lookupStatus (ensureSDK envX s0 "go1.21.0").2.1.status "go1.21.0" =
        some (some ⟨[Sentinel.remote], "listing known releases: x"⟩) ∧
      ensureSDK envX (ensureSDK envX s0 "go1.21.0").2.1 "go1.21.0" =
        (some ⟨[Sentinel.remote], "listing known releases: x"⟩,
          (ensureSDK envX s0 "go1.21.0").2.1, []) := by
  have hwf : statusWF s0 := fun v e h => by simp [s0, lookupStatus] at h
  have h := (c5_negative_cache envX s0 "go1.21.0" hwf).1
      ⟨[Sentinel.remote], "listing known releases: x"⟩ (by decide) (by decide)
  exact ⟨h.1, h.2 envX⟩

/-- C6: serveGzipFile serves stored bytes as gzip exactly when the
caller accepts gzip and decompressed bytes otherwise, but acceptsGzip
does not match the claimed characterization: on "a, gzip;q=0" the code
accepts gzip although the header lists gzip only with quality zero,
because the source compares t[1] (a comma entry) instead of tt[1] (the
quality parameter). -/
theorem c6_gzip_eval :
    acceptsGzip "a, gzip;q=0" = some true ∧
    acceptsGzipSpec "a, gzip;q=0" = false ∧
    serveGzipFile true [7] (.ok [9]) = .gzipped [7] ∧
    serveGzipFile false [7] (.ok [9]) = .plain [9] ∧
    serveGzipFile false [7] (.error "bad") = .failed 500 := by
  refine ⟨by decide, by decide, by decide, by decide, by decide⟩

/- C9 -/

/-- C7 counterexample: the very first observation re-sorts the list
although the total count 1 is not a multiple of 32. -/
theorem c7_sort_counterexample :
    (xt0.increase "linux/amd64").2 = true ∧
      ¬ ((xt0.increase "linux/amd64").1.totalUse % 32 = 0) := by
  refine ⟨by decide, by decide⟩

/-- C7 amended: increase re-sorts the target list exactly when the total
observation count after the call is at most 32 or a multiple of 32,
that is after every single observation during warmup and after every
further 32 afterwards. -/
theorem c7_sort_schedule (s : Xtargets) (tgt : String) :
    ((s.increase tgt).2 = true ↔ (s.totalUse + 1 ≤ 32 ∨ (s.totalUse + 1) % 32 = 0)) ∧
      (s.increase tgt).1.totalUse = s.totalUse + 1 := by
  dsimp only [Xtargets.increase]
  split
  · rename_i h
    simp only [Xtargets.sort]
    simpa using h
  · rename_i h
    simpa using h

/-- Witness for C7 at a concrete state. -/
theorem c7_sort_schedule_witness :
    ((xt0.increase "linux/amd64").2 = true ↔ (xt0.totalUse + 1 ≤ 32 ∨ (xt0.totalUse + 1) % 32 = 0)) ∧
      (xt0.increase "linux/amd64").1.totalUse = xt0.totalUse + 1 :=
  c7_sort_schedule xt0 "linux/amd64"

/- C8 -/

/-- C8 counterexample: a POST to /robots.txt is served with 200, not
405. -/
theorem c8_non_get_counterexample :
    ¬ ("POST" = "GET") ∧ handlerStatus "POST" "/robots.txt" (fun _ => 0) = 200 ∧
      handlerStatus "POST" "/robots.txt" (fun _ => 0) ≠ 405 := by
  refine ⟨by decide, by decide, by decide⟩

/-- C8 amended: a non-GET request is rejected with 405 exactly on the
paths dispatched to serveHome; the static-file handlers answer 200 and
the legacy redirect handlers 307 regardless of method. -/
theorem c8_non_get_status (m p : String) (homeGET : String → Nat) (hm : m ≠ "GET") :
    handlerStatus m p homeGET =
      (match route p with
       | .home => 405
       | .legacyM => 307
       | .legacyB => 307
       | .legacyR => 307
       | _ => 200) := by
  unfold handlerStatus
  cases hr : route p <;> simp [hm]

/-- Witness for C8: a POST to the landing page gets 405. -/
theorem c8_non_get_status_witness :
    handlerStatus "POST" "/" (fun _ => 200) = 405 := by
  have h := c8_non_get_status "POST" "/" (fun _ => 200) (by decide)
  rw [h]
  decide

/- C3 -/

/-- C9: acceptsGzip is not total: on the header value "gzip;q=0" the
source indexes t[1] of a one-element comma split and panics with an
out-of-range index instead of returning a boolean. -/
theorem c9_acceptsGzip_panics : acceptsGzip "gzip;q=0" = none := by decide

/- C7 -/

/-- C10: serving the landing page leaves recentBuilds.links unchanged
and hands the template exactly those links in reverse order, most
recent first. -/
theorem c10_serveHome_landing (links : List String) :
    serveHomeLanding links = (links.reverse, links) := by
  simp only [serveHomeLanding]
  rw [revLoopN_reverse]

/- C1 -/
